import Mathlib

/-!
# Verification of the salary-bot reconciliation and payroll engine

A shallow embedding of the core of `src/main.py` (a salary-reconciliation
bot): the visit ledger with its slot toggle, the supply ledger, the rate
resolver, the adjustment ledger (notes / reimbursements), the payroll
aggregator, the collision detector, and the submission auditor.

Database tables become lists of rows; SQL queries become list operations.
Timestamps (`NOW()`) become a `Nat` parameter passed into each operation.
The SQL date-range filter `visit_date >= month_start AND < month_end` is
rendered as equality of the year and month fields, which coincides with the
range condition on valid calendar dates (the only ones `datetime.date`
lets the program construct).
-/

namespace SalaryBot

/-- A calendar date, mirroring Python's `datetime.date` triple. -/
structure Date where
  y : Nat
  m : Nat
  d : Nat
deriving DecidableEq

/-- `SLOT_DAY` / `SLOT_FULL_INVENT` from `main.py` (the only slot values the
program ever stores in `visits.slot`). -/
inductive Slot where
  | DAY
  | FULL_INVENT
deriving DecidableEq

/-- The `kind` column of `reimbursements`: the program only ever inserts
`'NOTE'` or `'REIMB'` (guarded in the `pr_kind` handler). -/
inductive AdjKind where
  | NOTE
  | REIMB
deriving DecidableEq

/-- A row of `merchants` (columns the core logic reads). -/
structure Merchant where
  id : Nat
  fio : String
  telegram_id : Option Nat
deriving DecidableEq

/-- A row of `supplies`: unique per (point_code, supply_date). -/
structure SupplyRecord where
  point_code : String
  supply_date : Date
  boxes : Int
  has_supply : Bool
deriving DecidableEq

/-- A row of `visits`: unique per (merchant_id, point_code, visit_date, slot).
The row consists exactly of its key fields, so a row equals its key. -/
structure Visit where
  merchant_id : Nat
  point_code : String
  visit_date : Date
  slot : Slot
deriving DecidableEq

/-- A row of `reimbursements` (the adjustment ledger). `month_key` (a
first-of-month DATE in the schema) is carried as the (year, month) pair. -/
structure Adjustment where
  id : Nat
  merchant_id : Nat
  point_code : String
  month_y : Nat
  month_m : Nat
  amount : Int
  note : String
  kind : AdjKind
  receipt_file_id : Option String
  receipt_uploaded_at : Option Nat
deriving DecidableEq

/-- A row of `submissions`: unique per (merchant_id, month_key). -/
structure Submission where
  merchant_id : Nat
  month_y : Nat
  month_m : Nat
  submitted_at : Nat
  updated_after_submit_at : Option Nat
deriving DecidableEq

/-- A row of `point_rates`: unique per (point_code, month_key). -/
structure PointRate where
  point_code : String
  month_y : Nat
  month_m : Nat
  rate_supply : Int
  rate_no_supply : Int
  rate_inventory : Int
  coffee_enabled : Bool
  pay_lt5 : Bool
deriving DecidableEq

/-- The whole datastore: one list of rows per table. -/
structure DB where
  merchants : List Merchant
  supplies : List SupplyRecord
  visits : List Visit
  adjustments : List Adjustment
  submissions : List Submission
  point_rates : List PointRate
deriving DecidableEq

/-! ## Calendar helpers (`days_in_month`, `weekday_of`) -/

/-- Gregorian leap year, as `datetime.date` computes it. -/
def is_leap_year (y : Nat) : Bool :=
  (y % 4 == 0 && y % 100 != 0) || y % 400 == 0

/-- `days_in_month` from `main.py` (via `month_end_exclusive` minus a day). -/
def days_in_month (y m : Nat) : Nat :=
  if m = 2 then (if is_leap_year y then 29 else 28)
  else if m = 4 ∨ m = 6 ∨ m = 9 ∨ m = 11 then 30
  else 31

/-- Day of week with Sunday = 0 (Sakamoto's method, agreeing with the
Gregorian calendar that `datetime.date` implements). -/
def weekday_sun0 (y m d : Nat) : Nat :=
  let t := [0, 3, 2, 5, 0, 3, 5, 1, 4, 6, 2, 4]
  let y2 := if m < 3 then y - 1 else y
  (y2 + y2 / 4 - y2 / 100 + y2 / 400 + t.getD (m - 1) 0 + d) % 7

/-- `weekday_of` from `main.py`: `date(y, m, d).weekday()`, Monday = 0. -/
def weekday_of (y m d : Nat) : Nat :=
  (weekday_sun0 y m d + 6) % 7

/-- The days 1, …, days_in_month of a month, the key set of the per-day maps
built by `get_supply_boxes_map` / `get_visits_for_month`. -/
def month_days (y m : Nat) : List Nat :=
  (List.range (days_in_month y m)).map (· + 1)

/-! ## Rate resolver and supply ledger reads -/

/-- The resolved rate tuple returned by `get_point_rates`. -/
structure Rates where
  rate_supply : Int
  rate_no_supply : Int
  rate_inventory : Int
  coffee_enabled : Bool
  pay_lt5 : Bool
deriving DecidableEq

def DEFAULT_RATE_SUPPLY : Int := 800
def DEFAULT_RATE_NO_SUPPLY : Int := 400
def DEFAULT_RATE_INVENTORY : Int := 400
def DEFAULT_RATE_COFFEE : Int := 100

/-- `get_point_rates`: the stored override for (point, month) or the
compiled-in defaults (no partial overrides). -/
def get_point_rates (db : DB) (p : String) (y m : Nat) : Rates :=
  match db.point_rates.find?
      (fun r => decide (r.point_code = p ∧ r.month_y = y ∧ r.month_m = m)) with
  | some r => ⟨r.rate_supply, r.rate_no_supply, r.rate_inventory,
      r.coffee_enabled, r.pay_lt5⟩
  | none => ⟨DEFAULT_RATE_SUPPLY, DEFAULT_RATE_NO_SUPPLY,
      DEFAULT_RATE_INVENTORY, false, false⟩

/-- The per-day box count `get_supply_boxes_map(point, y, m).get(day, 0)`:
the `boxes` of the (point, date) supply row, default 0. -/
def get_supply_boxes (db : DB) (p : String) (y m day : Nat) : Int :=
  match db.supplies.find?
      (fun s => decide (s.point_code = p ∧ s.supply_date = ⟨y, m, day⟩)) with
  | some s => s.boxes
  | none => 0

/-- `effective_has_supply` from `main.py`. -/
def effective_has_supply (boxes : Int) (pay_lt5 : Bool) : Bool :=
  if boxes ≤ 0 then false
  else if pay_lt5 then true
  else decide (5 ≤ boxes)

/-! ## Visit ledger reads -/

/-- Whether the day→slot-set map built by `get_visits_for_month` has slot `s`
on day `day`: some visit row of the merchant at the point carries that date
and slot. -/
def day_has_slot (db : DB) (mid : Nat) (p : String) (y m day : Nat)
    (s : Slot) : Bool :=
  db.visits.any (fun v => decide (v.merchant_id = mid ∧ v.point_code = p ∧
    v.visit_date = ⟨y, m, day⟩ ∧ v.slot = s))

/-! ## Adjustment ledger reads (`get_reimb_aggregates`) -/

/-- The adjustment rows of a (merchant, point, month) scope. -/
def adj_rows (db : DB) (mid : Nat) (p : String) (y m : Nat) :
    List Adjustment :=
  db.adjustments.filter (fun a => decide (a.merchant_id = mid ∧
    a.point_code = p ∧ a.month_y = y ∧ a.month_m = m))

/-- `SUM(amount) ... AND kind = k` of `get_reimb_aggregates`. -/
def kind_sum (db : DB) (mid : Nat) (p : String) (y m : Nat)
    (k : AdjKind) : Int :=
  (((adj_rows db mid p y m).filter (fun a => decide (a.kind = k))).map
    (·.amount)).sum

/-- `COUNT(*) ... kind='REIMB' AND receipt_file_id IS NULL`. -/
def reimb_missing_receipt_count (db : DB) (mid : Nat) (p : String)
    (y m : Nat) : Nat :=
  ((adj_rows db mid p y m).filter
    (fun a => decide (a.kind = AdjKind.REIMB ∧ a.receipt_file_id = none))).length

/-! ## Payroll aggregator (`compute_point_total`, `compute_overall_total`) -/

/-- The tuple `compute_point_total` returns. -/
structure PointTotals where
  total : Int
  cnt_supply_day : Nat
  cnt_no_supply_day : Nat
  cnt_day_total : Nat
  cnt_full_inv : Nat
  notes_sum : Int
  reimb_sum : Int
  coffee_on : Bool
  coffee_sum : Int
  missing_receipt : Bool
deriving DecidableEq

/-- The running accumulator of `compute_point_total`'s loop over the visited
days of the month. -/
structure DayAcc where
  total : Int
  day_cnt : Nat
  cnt_supply_day : Nat
  cnt_no_supply_day : Nat
  cnt_full_inv : Nat
deriving DecidableEq

/-- The loop of `compute_point_total` over days: a day with a DAY slot adds
`rate_supply` or `rate_no_supply` according to `effective_has_supply`, a day
with a FULL_INVENT slot adds `rate_inventory`.  The source iterates the
day-keyed dict of `get_visits_for_month`; iterating all days of the month is
the same since a day without a visit contributes nothing. -/
def day_scan (db : DB) (mid : Nat) (p : String) (y m : Nat) (r : Rates) :
    List Nat → DayAcc
  | [] => ⟨0, 0, 0, 0, 0⟩
  | d :: ds =>
    let acc := day_scan db mid p y m r ds
    let acc1 :=
      if day_has_slot db mid p y m d Slot.DAY then
        if effective_has_supply (get_supply_boxes db p y m d) r.pay_lt5 then
          { acc with
            total := acc.total + r.rate_supply
            day_cnt := acc.day_cnt + 1
            cnt_supply_day := acc.cnt_supply_day + 1 }
        else
          { acc with
            total := acc.total + r.rate_no_supply
            day_cnt := acc.day_cnt + 1
            cnt_no_supply_day := acc.cnt_no_supply_day + 1 }
      else acc
    if day_has_slot db mid p y m d Slot.FULL_INVENT then
      { acc1 with
        total := acc1.total + r.rate_inventory
        cnt_full_inv := acc1.cnt_full_inv + 1 }
    else acc1

/-- `compute_point_total` from `main.py`: the visit-day loop, then the coffee
bonus (`DEFAULT_RATE_COFFEE * day_cnt` when enabled and `day_cnt > 0`), then
`notes_sum + reimb_sum`. -/
def compute_point_total (db : DB) (mid : Nat) (p : String) (y m : Nat) :
    PointTotals :=
  let r := get_point_rates db p y m
  let acc := day_scan db mid p y m r (month_days y m)
  let coffee_sum : Int :=
    if r.coffee_enabled ∧ 0 < acc.day_cnt then
      DEFAULT_RATE_COFFEE * (acc.day_cnt : Int)
    else 0
  let ns := kind_sum db mid p y m AdjKind.NOTE
  let rs := kind_sum db mid p y m AdjKind.REIMB
  { total := acc.total + coffee_sum + ns + rs
    cnt_supply_day := acc.cnt_supply_day
    cnt_no_supply_day := acc.cnt_no_supply_day
    cnt_day_total := acc.cnt_supply_day + acc.cnt_no_supply_day
    cnt_full_inv := acc.cnt_full_inv
    notes_sum := ns
    reimb_sum := rs
    coffee_on := r.coffee_enabled
    coffee_sum := coffee_sum
    missing_receipt := decide (0 < reimb_missing_receipt_count db mid p y m) }

/-- `get_points_for_month`: the distinct point codes with a visit row in the
month or an adjustment row with that month key, empty codes dropped (the
`if r and r[0]` guard of the source); `ORDER BY point_code` is presentation
only and is not modelled. -/
def get_points_for_month (db : DB) (mid : Nat) (y m : Nat) : List String :=
  ((((db.visits.filter (fun v => decide (v.merchant_id = mid ∧
        v.visit_date.y = y ∧ v.visit_date.m = m))).map (·.point_code)) ++
    ((db.adjustments.filter (fun a => decide (a.merchant_id = mid ∧
        a.month_y = y ∧ a.month_m = m))).map (·.point_code))).dedup).filter
    (fun s => decide (s ≠ ""))

/-- `compute_overall_total`: the running `total += s` over
`get_points_for_month`. -/
def compute_overall_total (db : DB) (mid : Nat) (y m : Nat) : Int :=
  (get_points_for_month db mid y m).foldl
    (fun t p => t + (compute_point_total db mid p y m).total) 0

/-! ## Visit toggle (`add_or_remove_visit`) -/

/-- `add_or_remove_visit`: if the (merchant, point, date, slot) row exists,
delete it (the source deletes the one row found, by id) and return
the flag pair (removed, not added); otherwise insert it and return
(not removed, added). -/
def add_or_remove_visit (db : DB) (mid : Nat) (p : String) (y m day : Nat)
    (slot : Slot) : DB × Bool × Bool :=
  let v : Visit := ⟨mid, p, ⟨y, m, day⟩, slot⟩
  if v ∈ db.visits then
    ({ db with visits := db.visits.erase v }, true, false)
  else
    ({ db with visits := v :: db.visits }, false, true)

/-! ## Collision detector (`find_collisions`) -/

/-- `find_collisions`: the distinct (merchant_id, fio) of visit rows at the
same point and date, of any slot kind, joined against `merchants` and
excluding the acting merchant. -/
def find_collisions (db : DB) (p : String) (y m day : Nat) (mid : Nat) :
    List (Nat × String) :=
  ((db.visits.filter (fun v => decide (v.point_code = p ∧
      v.visit_date = ⟨y, m, day⟩ ∧ v.merchant_id ≠ mid))).filterMap
    (fun v => (db.merchants.find? (fun mr => decide (mr.id = v.merchant_id))).map
      (fun mr => (v.merchant_id, mr.fio)))).dedup

/-! ## Submission auditor -/

/-- `get_submission_status`: the (merchant, month) submission row, if any. -/
def get_submission_status (db : DB) (mid : Nat) (y m : Nat) :
    Option Submission :=
  db.submissions.find? (fun s => decide (s.merchant_id = mid ∧
    s.month_y = y ∧ s.month_m = m))

/-- `mark_submitted`: insert iff absent; returns whether a row was created.
A second call finds the existing row and changes nothing. -/
def mark_submitted (db : DB) (mid : Nat) (y m : Nat) (now : Nat) :
    DB × Bool :=
  if db.submissions.any (fun s => decide (s.merchant_id = mid ∧
      s.month_y = y ∧ s.month_m = m)) then
    (db, false)
  else
    ({ db with submissions :=
        db.submissions ++ [⟨mid, y, m, now, none⟩] }, true)

/-- `touch_updated_after_submit`: `UPDATE submissions SET
updated_after_submit_at = NOW()` for the (merchant, month) key. -/
def touch_updated_after_submit (db : DB) (mid : Nat) (y m : Nat)
    (now : Nat) : DB :=
  { db with submissions := db.submissions.map (fun s =>
      if s.merchant_id = mid ∧ s.month_y = y ∧ s.month_m = m then
        { s with updated_after_submit_at := some now }
      else s) }

/-- The fio looked up for the audit message (`SELECT fio FROM merchants`). -/
def get_fio (db : DB) (mid : Nat) : Option String :=
  (db.merchants.find? (fun mr => decide (mr.id = mid))).map (·.fio)

/-- One admin broadcast of `maybe_notify_post_submit_change`: merchant name,
month, a description of the action, and the recomputed overall total. -/
structure AuditNote where
  fio : Option String
  y : Nat
  m : Nat
  action : String
  total : Int
deriving DecidableEq

/-- `maybe_notify_post_submit_change`: a no-op when no submission row exists;
otherwise touch the submission row and emit one admin notification with the
freshly recomputed overall month total. -/
def maybe_notify_post_submit_change (db : DB) (mid : Nat) (y m : Nat)
    (now : Nat) (action : String) : DB × List AuditNote :=
  match get_submission_status db mid y m with
  | none => (db, [])
  | some _ =>
    let db2 := touch_updated_after_submit db mid y m now
    (db2, [⟨get_fio db2 mid, y, m, action, compute_overall_total db2 mid y m⟩])

/-! ## The slot-toggle intent (`_toggle_slot_and_refresh`) -/

/-- The error of the weekday-legality gate (spec: `IllegalSlotForWeekday`). -/
inductive ToggleError where
  | IllegalSlotForWeekday
deriving DecidableEq

/-- What a toggle intent leaves behind: the datastore, the gate's error if it
fired, the two flags, the audit notifications and the collision list. -/
structure ToggleOutcome where
  db : DB
  err : Option ToggleError
  wasRemoved : Bool
  wasAdded : Bool
  audit : List AuditNote
  collisions : List (Nat × String)
deriving DecidableEq

/-- `_toggle_slot_and_refresh`: FULL_INVENT on a weekday other than Friday (4)
or Saturday (5) is refused before any mutation; otherwise the visit row is
toggled, the submission auditor is touched, and — only when the toggle was an
addition — collisions are looked up in the post-toggle ledger. -/
def toggle_slot (db : DB) (mid : Nat) (p : String) (y m day : Nat)
    (slot : Slot) (now : Nat) : ToggleOutcome :=
  if slot = Slot.FULL_INVENT ∧
      ¬(weekday_of y m day = 4 ∨ weekday_of y m day = 5) then
    ⟨db, some ToggleError.IllegalSlotForWeekday, false, false, [], []⟩
  else
    let o := add_or_remove_visit db mid p y m day slot
    let existed := o.2.1
    let added := o.2.2
    let action := (if existed then "removed " else "added ") ++ p
    let o2 := maybe_notify_post_submit_change o.1 mid y m now action
    let cols := if added then find_collisions o2.1 p y m day mid else []
    ⟨o2.1, none, existed, added, o2.2, cols⟩

/-! ## Adjustment ledger operations -/

/-- The id `RETURNING id` yields for a fresh `reimbursements` row (SERIAL:
larger than every existing id). -/
def next_adj_id (db : DB) : Nat :=
  db.adjustments.foldl (fun acc a => max acc a.id) 0 + 1

/-- The `pr_text` handler: insert a NOTE or REIMB adjustment row (receipt
still null), then touch the submission auditor. Returns the new row's id. -/
def add_adjustment (db : DB) (mid : Nat) (p : String) (y m : Nat)
    (amount : Int) (memo : String) (kind : AdjKind) (now : Nat) :
    DB × Nat × List AuditNote :=
  let rid := next_adj_id db
  let db1 := { db with adjustments :=
      db.adjustments ++ [⟨rid, mid, p, y, m, amount, memo, kind, none, none⟩] }
  let o := maybe_notify_post_submit_change db1 mid y m now
      ("added adjustment " ++ p)
  (o.1, rid, o.2)

/-- `_save_receipt_and_notify_tu`: `UPDATE reimbursements SET
receipt_file_id=:fid, receipt_uploaded_at=NOW() WHERE id=:id AND
kind='REIMB'` — no null-guard, so an existing receipt is overwritten.  The
handler then messages the territory admin; it never calls
`maybe_notify_post_submit_change`, so its audit-notification list is empty. -/
def attach_receipt (db : DB) (rid : Nat) (fid : String) (now : Nat) :
    DB × List AuditNote :=
  ({ db with adjustments := db.adjustments.map (fun a =>
      if a.id = rid ∧ a.kind = AdjKind.REIMB then
        { a with
          receipt_file_id := some fid
          receipt_uploaded_at := some now }
      else a) }, [])

/-- The receipt-stage cancellation in `cancel_or_restart`: `DELETE FROM
reimbursements WHERE id=:id AND kind='REIMB' AND receipt_file_id IS NULL`.
No call to `maybe_notify_post_submit_change` follows. -/
def cancel_reimb_draft (db : DB) (rid : Nat) : DB × List AuditNote :=
  ({ db with adjustments := db.adjustments.filter (fun a =>
      decide (¬(a.id = rid ∧ a.kind = AdjKind.REIMB ∧
        a.receipt_file_id = none))) }, [])

/-! ## The spec's aggregation formula (§4.7), for comparison with
`compute_point_total` -/

/-- What one day contributes for a DAY-slot visit under the spec's formula:
`rate_with_supply` when `effectiveHasSupply(boxCount(point, visitDate),
payUnderFive)`, else `rate_without_supply`; nothing without a DAY visit. -/
def day_pay (db : DB) (mid : Nat) (p : String) (y m : Nat) (r : Rates)
    (d : Nat) : Int :=
  if day_has_slot db mid p y m d Slot.DAY then
    if effective_has_supply (get_supply_boxes db p y m d) r.pay_lt5 then
      r.rate_supply
    else r.rate_no_supply
  else 0

/-- What one day contributes for a FULL_INVENTORY-slot visit under the spec's
formula: `rate_inventory`. -/
def inv_pay (db : DB) (mid : Nat) (p : String) (y m : Nat) (r : Rates)
    (d : Nat) : Int :=
  if day_has_slot db mid p y m d Slot.FULL_INVENT then r.rate_inventory else 0

/-- The spec's `perPointTotal` formula, written as in §4.7: sum over DAY-slot
visits, plus sum over FULL_INVENTORY-slot visits, plus the coffee constant
times the DAY-visit count when the bonus is enabled, plus the sum of all
Adjustment amounts of the scope. -/
def spec_per_point_total (db : DB) (mid : Nat) (p : String) (y m : Nat) :
    Int :=
  let r := get_point_rates db p y m
  ((month_days y m).map (day_pay db mid p y m r)).sum +
    ((month_days y m).map (inv_pay db mid p y m r)).sum +
    (if r.coffee_enabled then
      DEFAULT_RATE_COFFEE *
        (((month_days y m).countP
          (fun d => day_has_slot db mid p y m d Slot.DAY)) : Int)
    else 0) +
    ((adj_rows db mid p y m).map (·.amount)).sum

/-! ## Helper lemmas about the day loop -/

lemma day_scan_total (db : DB) (mid : Nat) (p : String) (y m : Nat)
    (r : Rates) : ∀ l : List Nat,
    (day_scan db mid p y m r l).total =
      (l.map (day_pay db mid p y m r)).sum +
        (l.map (inv_pay db mid p y m r)).sum
  | [] => by simp [day_scan]
  | d :: l => by
    have ih := day_scan_total db mid p y m r l
    simp only [day_scan, List.map_cons, List.sum_cons, day_pay, inv_pay]
    cases h1 : day_has_slot db mid p y m d Slot.DAY <;>
      cases h2 : day_has_slot db mid p y m d Slot.FULL_INVENT <;>
      cases h3 : effective_has_supply (get_supply_boxes db p y m d) r.pay_lt5 <;>
      simp [h1, h2, h3, ih] <;> ring

lemma day_scan_day_cnt (db : DB) (mid : Nat) (p : String) (y m : Nat)
    (r : Rates) : ∀ l : List Nat,
    (day_scan db mid p y m r l).day_cnt =
      l.countP (fun d => day_has_slot db mid p y m d Slot.DAY)
  | [] => by simp [day_scan]
  | d :: l => by
    have ih := day_scan_day_cnt db mid p y m r l
    simp only [day_scan, List.countP_cons]
    cases h1 : day_has_slot db mid p y m d Slot.DAY <;>
      cases h2 : day_has_slot db mid p y m d Slot.FULL_INVENT <;>
      cases h3 : effective_has_supply (get_supply_boxes db p y m d) r.pay_lt5 <;>
      simp [h1, h2, h3, ih]

lemma kind_sum_split (db : DB) (mid : Nat) (p : String) (y m : Nat) :
    kind_sum db mid p y m AdjKind.NOTE + kind_sum db mid p y m AdjKind.REIMB =
      ((adj_rows db mid p y m).map (·.amount)).sum := by
  unfold kind_sum
  induction adj_rows db mid p y m with
  | nil => simp
  | cons a l ih =>
    cases hk : a.kind <;> simp [hk, List.filter_cons] <;> rw [← ih] <;> ring

/-- The concrete point of the spec's aggregation example: rates are the
defaults (800, 400, 400, coffee off), one DAY visit on 2026-10-06 with
box_count 7 and one DAY visit on 2026-10-07 with box_count 0. -/
def exampleDB : DB :=
  { merchants := [⟨1, "A A", none⟩]
    supplies := [⟨"p1", ⟨2026, 10, 6⟩, 7, true⟩, ⟨"p1", ⟨2026, 10, 7⟩, 0, false⟩]
    visits := [⟨1, "p1", ⟨2026, 10, 6⟩, Slot.DAY⟩,
      ⟨1, "p1", ⟨2026, 10, 7⟩, Slot.DAY⟩]
    adjustments := []
    submissions := []
    point_rates := [] }

/-- The example ledger with a note of −200 added. -/
def exampleDB2 : DB :=
  { exampleDB with adjustments :=
      [⟨1, 1, "p1", 2026, 10, -200, "corr", AdjKind.NOTE, none, none⟩] }

/-- C1: for every merchant, point and month the per-point payroll total of
`compute_point_total` equals the spec's formula (DAY visits paid by effective
supply, inventory visits at `rate_inventory`, the fixed coffee constant 100
per DAY visit when enabled, plus all adjustment amounts of the scope);
`effective_has_supply` is true iff the box count is positive and
(`pay_lt5` or at least 5 boxes); and on the spec's example ledger the total
is 1200, becoming 1000 after a −200 note. -/
theorem C1_per_point_total_formula (db : DB) (mid : Nat) (p : String)
    (y m : Nat) :
    (compute_point_total db mid p y m).total = spec_per_point_total db mid p y m
    ∧ (∀ (boxes : Int) (pl5 : Bool), effective_has_supply boxes pl5 = true ↔
        (0 < boxes ∧ (pl5 = true ∨ 5 ≤ boxes)))
    ∧ (compute_point_total exampleDB 1 "p1" 2026 10).total = 1200
    ∧ (compute_point_total exampleDB2 1 "p1" 2026 10).total = 1000 := by
  refine ⟨?_, ?_, by decide, by decide⟩
  · simp only [compute_point_total, spec_per_point_total]
    rw [day_scan_total, day_scan_day_cnt, ← kind_sum_split]
    cases hc : (get_point_rates db p y m).coffee_enabled <;>
      cases hn : (month_days y m).countP
        (fun d => day_has_slot db mid p y m d Slot.DAY) <;>
      simp [hc, hn] <;> ring
  · intro boxes pl5
    cases pl5 <;> unfold effective_has_supply <;>
      split_ifs <;> simp_all

/-! ## Helper lemmas about the toggle -/

lemma any_erase_of_not {α : Type} [DecidableEq α] (v : α) (q : α → Bool)
    (h : q v = false) : ∀ l : List α, (l.erase v).any q = l.any q
  | [] => by simp
  | a :: tl => by
    by_cases hav : a = v
    · subst hav
      rw [List.erase_cons_head]
      simp [h]
    · have hbeq : (a == v) = false := by simp [hav]
      rw [List.erase_cons_tail (by simp [hbeq])]
      simp [any_erase_of_not v q h tl]

/-- A toggle on a present row erases that row and reports a removal. -/
lemma add_or_remove_visit_mem {db : DB} {mid : Nat} {p : String}
    {y m day : Nat} {slot : Slot}
    (hv : (⟨mid, p, ⟨y, m, day⟩, slot⟩ : Visit) ∈ db.visits) :
    add_or_remove_visit db mid p y m day slot =
      ({ db with visits := db.visits.erase ⟨mid, p, ⟨y, m, day⟩, slot⟩ },
        true, false) := by
  simp [add_or_remove_visit, hv]

/-- A toggle on an absent row inserts that row and reports an addition. -/
lemma add_or_remove_visit_not_mem {db : DB} {mid : Nat} {p : String}
    {y m day : Nat} {slot : Slot}
    (hv : (⟨mid, p, ⟨y, m, day⟩, slot⟩ : Visit) ∉ db.visits) :
    add_or_remove_visit db mid p y m day slot =
      ({ db with visits := (⟨mid, p, ⟨y, m, day⟩, slot⟩ : Visit) :: db.visits },
        false, true) := by
  simp [add_or_remove_visit, hv]

/-- `compute_point_total` reads the visit ledger only through the per-day
slot test, so replacing the visit table without changing that test leaves
every per-point total unchanged. -/
lemma compute_point_total_set_visits (db : DB) (l : List Visit) (mid : Nat)
    (p : String) (y m : Nat)
    (h : ∀ d s, day_has_slot { db with visits := l } mid p y m d s =
      day_has_slot db mid p y m d s) :
    compute_point_total { db with visits := l } mid p y m =
      compute_point_total db mid p y m := by
  have hbox : ∀ d, get_supply_boxes { db with visits := l } p y m d =
      get_supply_boxes db p y m d := fun _ => rfl
  have hscan : ∀ (r : Rates) (ds : List Nat),
      day_scan { db with visits := l } mid p y m r ds =
        day_scan db mid p y m r ds := by
    intro r ds
    induction ds with
    | nil => rfl
    | cons d ds ih => simp only [day_scan, ih, h, hbox]
  have hrate : get_point_rates { db with visits := l } p y m =
      get_point_rates db p y m := rfl
  have hks : ∀ k, kind_sum { db with visits := l } mid p y m k =
      kind_sum db mid p y m k := fun _ => rfl
  have hmiss : reimb_missing_receipt_count { db with visits := l } mid p y m =
      reimb_missing_receipt_count db mid p y m := rfl
  simp only [compute_point_total, hrate, hscan, hks, hmiss]

/-- C2: a toggle deletes the (merchant, point, date, slot) row and reports
`wasRemoved` when the row exists, otherwise inserts it and reports
`wasAdded`; exactly one flag is set per call, the second of two consecutive
calls reports the opposite flags of the first, and after the double toggle
the row is present iff it was present initially. -/
theorem C2_toggle_flags_double (db : DB) (mid : Nat) (p : String)
    (y m day : Nat) (slot : Slot) (hwf : db.visits.Nodup) :
    ((add_or_remove_visit db mid p y m day slot).2.1 ≠
      (add_or_remove_visit db mid p y m day slot).2.2)
    ∧ ((⟨mid, p, ⟨y, m, day⟩, slot⟩ : Visit) ∈ db.visits →
        (add_or_remove_visit db mid p y m day slot).2.1 = true ∧
        (add_or_remove_visit db mid p y m day slot).2.2 = false ∧
        (⟨mid, p, ⟨y, m, day⟩, slot⟩ : Visit) ∉
          (add_or_remove_visit db mid p y m day slot).1.visits)
    ∧ ((⟨mid, p, ⟨y, m, day⟩, slot⟩ : Visit) ∉ db.visits →
        (add_or_remove_visit db mid p y m day slot).2.1 = false ∧
        (add_or_remove_visit db mid p y m day slot).2.2 = true ∧
        (⟨mid, p, ⟨y, m, day⟩, slot⟩ : Visit) ∈
          (add_or_remove_visit db mid p y m day slot).1.visits)
    ∧ ((add_or_remove_visit
          (add_or_remove_visit db mid p y m day slot).1 mid p y m day slot).2.1 =
        (add_or_remove_visit db mid p y m day slot).2.2)
    ∧ ((add_or_remove_visit
          (add_or_remove_visit db mid p y m day slot).1 mid p y m day slot).2.2 =
        (add_or_remove_visit db mid p y m day slot).2.1)
    ∧ ((⟨mid, p, ⟨y, m, day⟩, slot⟩ : Visit) ∈
        (add_or_remove_visit
          (add_or_remove_visit db mid p y m day slot).1 mid p y m day slot).1.visits
        ↔ (⟨mid, p, ⟨y, m, day⟩, slot⟩ : Visit) ∈ db.visits) := by
  by_cases hv : (⟨mid, p, ⟨y, m, day⟩, slot⟩ : Visit) ∈ db.visits
  · have hout : (⟨mid, p, ⟨y, m, day⟩, slot⟩ : Visit) ∉
        db.visits.erase ⟨mid, p, ⟨y, m, day⟩, slot⟩ := by
      rw [hwf.mem_erase_iff]
      simp
    rw [add_or_remove_visit_mem hv]
    have h2 := @add_or_remove_visit_not_mem
      { db with visits := db.visits.erase ⟨mid, p, ⟨y, m, day⟩, slot⟩ }
      mid p y m day slot hout
    rw [h2]
    simp [hv, hout]
  · have hin : (⟨mid, p, ⟨y, m, day⟩, slot⟩ : Visit) ∈
        (⟨mid, p, ⟨y, m, day⟩, slot⟩ : Visit) :: db.visits :=
      List.mem_cons_self _ _
    rw [add_or_remove_visit_not_mem hv]
    have h2 := @add_or_remove_visit_mem
      { db with visits := (⟨mid, p, ⟨y, m, day⟩, slot⟩ : Visit) :: db.visits }
      mid p y m day slot hin
    rw [h2]
    simp [hv, List.erase_cons_head]

/-- C2 witness: on a concrete ledger the toggle sets exactly one flag. -/
theorem C2_toggle_flags_double_witness :
    (add_or_remove_visit exampleDB 1 "p1" 2026 10 6 Slot.DAY).2.1 ≠
      (add_or_remove_visit exampleDB 1 "p1" 2026 10 6 Slot.DAY).2.2 :=
  (C2_toggle_flags_double exampleDB 1 "p1" 2026 10 6 Slot.DAY (by decide)).1

/-- C10: the toggle's frame — every table other than `visits` is untouched,
every visit row whose key differs from the toggled key keeps its exact
multiplicity, and the per-point totals of every other merchant are
unchanged. -/
theorem C10_toggle_frame (db : DB) (mid : Nat) (p : String) (y m day : Nat)
    (slot : Slot) (mid2 : Nat) (p2 : String) (y2 m2 : Nat)
    (hne : mid2 ≠ mid) :
    (add_or_remove_visit db mid p y m day slot).1.merchants = db.merchants
    ∧ (add_or_remove_visit db mid p y m day slot).1.supplies = db.supplies
    ∧ (add_or_remove_visit db mid p y m day slot).1.adjustments = db.adjustments
    ∧ (add_or_remove_visit db mid p y m day slot).1.submissions = db.submissions
    ∧ (add_or_remove_visit db mid p y m day slot).1.point_rates = db.point_rates
    ∧ (∀ r : Visit, r ≠ ⟨mid, p, ⟨y, m, day⟩, slot⟩ →
        (add_or_remove_visit db mid p y m day slot).1.visits.count r =
          db.visits.count r)
    ∧ compute_point_total (add_or_remove_visit db mid p y m day slot).1
        mid2 p2 y2 m2 = compute_point_total db mid2 p2 y2 m2 := by
  have hq : ∀ (d : Nat) (s : Slot),
      (decide ((⟨mid, p, ⟨y, m, day⟩, slot⟩ : Visit).merchant_id = mid2 ∧
        (⟨mid, p, ⟨y, m, day⟩, slot⟩ : Visit).point_code = p2 ∧
        (⟨mid, p, ⟨y, m, day⟩, slot⟩ : Visit).visit_date = ⟨y2, m2, d⟩ ∧
        (⟨mid, p, ⟨y, m, day⟩, slot⟩ : Visit).slot = s)) = false := by
    intro d s
    simp only [decide_eq_false_iff_not]
    intro hcontra
    exact hne hcontra.1.symm
  by_cases hv : (⟨mid, p, ⟨y, m, day⟩, slot⟩ : Visit) ∈ db.visits
  · rw [add_or_remove_visit_mem hv]
    refine ⟨rfl, rfl, rfl, rfl, rfl, ?_, ?_⟩
    · intro r hr
      exact List.count_erase_of_ne hr _
    · apply compute_point_total_set_visits
      intro d s
      simp only [day_has_slot]
      exact any_erase_of_not (⟨mid, p, ⟨y, m, day⟩, slot⟩ : Visit)
        (fun v => decide (v.merchant_id = mid2 ∧ v.point_code = p2 ∧
          v.visit_date = ⟨y2, m2, d⟩ ∧ v.slot = s)) (hq d s) db.visits
  · rw [add_or_remove_visit_not_mem hv]
    refine ⟨rfl, rfl, rfl, rfl, rfl, ?_, ?_⟩
    · intro r hr
      exact List.count_cons_of_ne hr _
    · apply compute_point_total_set_visits
      intro d s
      simp only [day_has_slot, List.any_cons, hq d s]
      simp

/-- C10 witness: toggling merchant 1's slot leaves merchant 2's per-point
total unchanged on a concrete ledger. -/
theorem C10_toggle_frame_witness :
    compute_point_total (add_or_remove_visit exampleDB 1 "p1" 2026 10 8
        Slot.DAY).1 2 "p1" 2026 10 =
      compute_point_total exampleDB 2 "p1" 2026 10 :=
  (C10_toggle_frame exampleDB 1 "p1" 2026 10 8 Slot.DAY 2 "p1" 2026 10
    (by decide)).2.2.2.2.2.2

/-- C3: slot kind DAY is legal on every weekday, while FULL_INVENTORY is
legal only on Friday (weekday 4) and Saturday (5): on any other weekday the
toggle intent fails with `IllegalSlotForWeekday` leaving the datastore (in
particular the visit ledger) untouched, with no audit or collision output,
while on a Friday or Saturday it goes through. -/
theorem C3_weekday_legality (db : DB) (mid : Nat) (p : String)
    (y m day : Nat) (now : Nat) :
    ((weekday_of y m day ≠ 4 ∧ weekday_of y m day ≠ 5) →
      toggle_slot db mid p y m day Slot.FULL_INVENT now =
        ⟨db, some ToggleError.IllegalSlotForWeekday, false, false, [], []⟩)
    ∧ (weekday_of y m day = 4 →
        (toggle_slot db mid p y m day Slot.FULL_INVENT now).err = none)
    ∧ (weekday_of y m day = 5 →
        (toggle_slot db mid p y m day Slot.FULL_INVENT now).err = none)
    ∧ (toggle_slot db mid p y m day Slot.DAY now).err = none := by
  refine ⟨?_, ?_, ?_, ?_⟩
  · intro h
    simp [toggle_slot, h.1, h.2]
  · intro h
    simp [toggle_slot, h]
  · intro h
    simp [toggle_slot, h]
  · simp [toggle_slot]

/-! ## Submission helpers -/

lemma find?_append_of_none {α : Type} (p : α → Bool) :
    ∀ {l1 : List α}, l1.find? p = none → ∀ l2 : List α,
      (l1 ++ l2).find? p = l2.find? p
  | [], _, l2 => by simp
  | a :: tl, h, l2 => by
    cases hpa : p a with
    | true => simp [List.find?_cons, hpa] at h
    | false =>
      rw [List.find?_cons, hpa] at h
      simp only [List.cons_append, List.find?_cons, hpa]
      exact find?_append_of_none p h l2

/-- The key predicate of the submissions table. -/
def sub_key (mid : Nat) (y m : Nat) (s : Submission) : Bool :=
  decide (s.merchant_id = mid ∧ s.month_y = y ∧ s.month_m = m)

lemma get_submission_status_eq_find (db : DB) (mid : Nat) (y m : Nat) :
    get_submission_status db mid y m =
      db.submissions.find? (sub_key mid y m) := rfl

lemma status_ne_none_iff_any (db : DB) (mid : Nat) (y m : Nat) :
    get_submission_status db mid y m ≠ none ↔
      db.submissions.any (fun s => decide (s.merchant_id = mid ∧
        s.month_y = y ∧ s.month_m = m)) = true := by
  rw [get_submission_status_eq_find]
  constructor
  · intro h
    cases hf : db.submissions.find? (sub_key mid y m) with
    | none => exact absurd hf h
    | some x =>
      have hmem : x ∈ db.submissions := List.mem_of_find?_eq_some hf
      have hpx : sub_key mid y m x = true := List.find?_some hf
      exact List.any_eq_true.mpr ⟨x, hmem, hpx⟩
  · intro h hnone
    obtain ⟨x, hx, hpx⟩ := List.any_eq_true.mp h
    exact absurd hpx (List.find?_eq_none.mp hnone x hx)

/-- When a submission row exists, `mark_submitted` is the identity and
reports `created = false`. -/
lemma mark_submitted_of_present {db : DB} {mid : Nat} {y m : Nat}
    (h : get_submission_status db mid y m ≠ none) (t : Nat) :
    mark_submitted db mid y m t = (db, false) := by
  unfold mark_submitted
  rw [if_pos ((status_ne_none_iff_any db mid y m).mp h)]

/-- A sequence of further submit calls, as the operator may repeat them. -/
def submit_iter (mid : Nat) (y m : Nat) : DB → List Nat → DB
  | db, [] => db
  | db, t :: ts => submit_iter mid y m (mark_submitted db mid y m t).1 ts

lemma submit_iter_of_present {db : DB} {mid : Nat} {y m : Nat}
    (h : get_submission_status db mid y m ≠ none) :
    ∀ ts : List Nat, submit_iter mid y m db ts = db
  | [] => rfl
  | t :: ts => by
    simp only [submit_iter, mark_submitted_of_present h t]
    exact submit_iter_of_present h ts

/-- C5: `submit` inserts iff no submission row exists and reports `created`
exactly then; a second call reports `created = false` and changes nothing;
any number of further calls change nothing; afterwards exactly one row of
the (merchant, month) key exists and its original `submitted_at` (the whole
original row) survives unchanged. -/
theorem C5_submit_idempotent (db : DB) (mid : Nat) (y m : Nat)
    (t1 t2 : Nat)
    (hwf : db.submissions.countP (sub_key mid y m) ≤ 1) :
    ((mark_submitted db mid y m t1).2 = true ↔
      get_submission_status db mid y m = none)
    ∧ get_submission_status (mark_submitted db mid y m t1).1 mid y m ≠ none
    ∧ mark_submitted (mark_submitted db mid y m t1).1 mid y m t2 =
        ((mark_submitted db mid y m t1).1, false)
    ∧ (∀ ts : List Nat,
        submit_iter mid y m (mark_submitted db mid y m t1).1 ts =
          (mark_submitted db mid y m t1).1)
    ∧ (mark_submitted db mid y m t1).1.submissions.countP (sub_key mid y m) = 1
    ∧ (get_submission_status db mid y m = none →
        get_submission_status (mark_submitted db mid y m t1).1 mid y m =
          some ⟨mid, y, m, t1, none⟩)
    ∧ (∀ srow : Submission, get_submission_status db mid y m = some srow →
        get_submission_status (mark_submitted db mid y m t1).1 mid y m =
          some srow) := by
  by_cases hpres : get_submission_status db mid y m = none
  · have hany : db.submissions.any (fun s => decide (s.merchant_id = mid ∧
        s.month_y = y ∧ s.month_m = m)) = false := by
      cases hc : db.submissions.any (fun s => decide (s.merchant_id = mid ∧
          s.month_y = y ∧ s.month_m = m)) with
      | false => rfl
      | true => exact absurd hpres ((status_ne_none_iff_any db mid y m).mpr hc)
    have hmk : mark_submitted db mid y m t1 =
        ({ db with submissions := db.submissions ++ [⟨mid, y, m, t1, none⟩] },
          true) := by
      unfold mark_submitted
      rw [if_neg (by rw [hany]; simp)]
    have hfindnil : db.submissions.find? (sub_key mid y m) = none := hpres
    have hstat2 : get_submission_status (mark_submitted db mid y m t1).1
        mid y m = some ⟨mid, y, m, t1, none⟩ := by
      rw [hmk]
      show (db.submissions ++ [(⟨mid, y, m, t1, none⟩ : Submission)]).find?
        (sub_key mid y m) = some (⟨mid, y, m, t1, none⟩ : Submission)
      rw [find?_append_of_none _ hfindnil]
      simp [sub_key]
    have hne2 : get_submission_status (mark_submitted db mid y m t1).1
        mid y m ≠ none := by
      rw [hstat2]
      exact Option.some_ne_none _
    have hcount0 : db.submissions.countP (sub_key mid y m) = 0 := by
      rw [List.countP_eq_zero]
      intro a ha hc
      exact ((status_ne_none_iff_any db mid y m).mpr
        (List.any_eq_true.mpr ⟨a, ha, hc⟩)) hpres
    refine ⟨?_, hne2, mark_submitted_of_present hne2 t2,
      submit_iter_of_present hne2, ?_, fun _ => hstat2, ?_⟩
    · rw [hmk]
      simp [hpres]
    · rw [hmk]
      simp [List.countP_append, hcount0, sub_key]
    · intro srow hsome
      rw [hpres] at hsome
      exact Option.noConfusion hsome
  · have hmk := mark_submitted_of_present hpres t1
    have hone : db.submissions.countP (sub_key mid y m) = 1 := by
      have hpos : 0 < db.submissions.countP (sub_key mid y m) := by
        obtain ⟨x, hx, hpx⟩ := List.any_eq_true.mp
          ((status_ne_none_iff_any db mid y m).mp hpres)
        exact List.countP_pos_iff.mpr ⟨x, hx, hpx⟩
      omega
    refine ⟨?_, ?_, ?_, ?_, ?_, ?_, ?_⟩
    · rw [hmk]
      simp [hpres]
    · rw [hmk]
      exact hpres
    · rw [hmk]
      exact mark_submitted_of_present hpres t2
    · rw [hmk]
      exact submit_iter_of_present hpres
    · rw [hmk]
      exact hone
    · intro hnone
      exact absurd hnone hpres
    · intro srow hsome
      rw [hmk]
      exact hsome

/-- C5 witness: on a concrete empty submissions table, the first submit
creates the row. -/
theorem C5_submit_idempotent_witness :
    (mark_submitted exampleDB 1 2026 10 5).2 = true ↔
      get_submission_status exampleDB 1 2026 10 = none :=
  (C5_submit_idempotent exampleDB 1 2026 10 5 6 (by decide)).1

/-! ## Touch helpers -/

/-- After `touch_updated_after_submit`, every row of the (merchant, month)
key carries `updated_after_submit_at = some now`. -/
lemma touch_key_rows (db : DB) (mid : Nat) (y m : Nat) (now : Nat) :
    ∀ s ∈ (touch_updated_after_submit db mid y m now).submissions,
      s.merchant_id = mid → s.month_y = y → s.month_m = m →
        s.updated_after_submit_at = some now := by
  intro s hs
  simp only [touch_updated_after_submit] at hs
  obtain ⟨s0, hs0, rfl⟩ := List.mem_map.mp hs
  by_cases hk : s0.merchant_id = mid ∧ s0.month_y = y ∧ s0.month_m = m
  · rw [if_pos hk]
    intro _ _ _
    rfl
  · rw [if_neg hk]
    intro h1 h2 h3
    exact absurd ⟨h1, h2, h3⟩ hk

lemma any_congr_on {α : Type} (p q : α → Bool) :
    ∀ l : List α, (∀ a ∈ l, p a = q a) → l.any p = l.any q
  | [], _ => rfl
  | a :: tl, h => by
    simp only [List.any_cons, h a (List.mem_cons_self a tl)]
    rw [any_congr_on p q tl (fun b hb => h b (List.mem_cons_of_mem a hb))]

/-- Touching preserves the existence of the (merchant, month) row. -/
lemma status_touch_ne_none {db : DB} {mid : Nat} {y m : Nat} (now : Nat)
    (h : get_submission_status db mid y m ≠ none) :
    get_submission_status (touch_updated_after_submit db mid y m now)
      mid y m ≠ none := by
  rw [status_ne_none_iff_any] at h ⊢
  simp only [touch_updated_after_submit, List.any_map]
  rw [← h]
  apply any_congr_on
  intro s _
  by_cases hk : s.merchant_id = mid ∧ s.month_y = y ∧ s.month_m = m
  · simp [Function.comp, hk]
  · simp [Function.comp, if_neg hk]

/-- C6: `touch` (the body of `maybe_notify_post_submit_change`) is a no-op
with no notification when no submission row exists; when one exists it sets
`updated_after_submit_at` of the key's rows to the current time, and emits
exactly one admin notification carrying the merchant's name, the month, the
action description, and the freshly recomputed overall month total; a later
touch at a later time overwrites the timestamp with that later time. -/
theorem C6_touch_notification (db : DB) (mid : Nat) (y m : Nat)
    (now t2 : Nat) (action act2 : String) :
    (get_submission_status db mid y m = none →
      maybe_notify_post_submit_change db mid y m now action = (db, []))
    ∧ (get_submission_status db mid y m ≠ none →
        (maybe_notify_post_submit_change db mid y m now action).2 =
          [⟨get_fio db mid, y, m, action,
            compute_overall_total
              (maybe_notify_post_submit_change db mid y m now action).1
              mid y m⟩]
        ∧ (maybe_notify_post_submit_change db mid y m now action).2.length = 1
        ∧ (∀ s ∈ (maybe_notify_post_submit_change db mid y m now
              action).1.submissions,
            s.merchant_id = mid → s.month_y = y → s.month_m = m →
              s.updated_after_submit_at = some now)
        ∧ (∀ s2 ∈ (maybe_notify_post_submit_change
              (maybe_notify_post_submit_change db mid y m now action).1
              mid y m t2 act2).1.submissions,
            s2.merchant_id = mid → s2.month_y = y → s2.month_m = m →
              s2.updated_after_submit_at = some t2)) := by
  constructor
  · intro h
    simp [maybe_notify_post_submit_change, h]
  · intro h
    cases hs : get_submission_status db mid y m with
    | none => exact absurd hs h
    | some srow =>
      have hfio : get_fio (touch_updated_after_submit db mid y m now) mid =
          get_fio db mid := rfl
      refine ⟨?_, ?_, ?_, ?_⟩
      · simp [maybe_notify_post_submit_change, hs, hfio]
      · simp [maybe_notify_post_submit_change, hs]
      · simp only [maybe_notify_post_submit_change, hs]
        exact touch_key_rows db mid y m now
      · have hdb1 : (maybe_notify_post_submit_change db mid y m now action).1 =
            touch_updated_after_submit db mid y m now := by
          simp [maybe_notify_post_submit_change, hs]
        rw [hdb1]
        have hne1 : get_submission_status
            (touch_updated_after_submit db mid y m now) mid y m ≠ none :=
          status_touch_ne_none now h
        cases hs2 : get_submission_status
            (touch_updated_after_submit db mid y m now) mid y m with
        | none => exact absurd hs2 hne1
        | some srow2 =>
          simp only [maybe_notify_post_submit_change, hs2]
          exact touch_key_rows _ mid y m t2

/-! ## Overall-total helpers -/

lemma foldl_add_int (f : String → Int) :
    ∀ (l : List String) (a : Int),
      l.foldl (fun t p => t + f p) a = a + (l.map f).sum
  | [], a => by simp
  | p :: l, a => by
    simp only [List.foldl_cons, List.map_cons, List.sum_cons]
    rw [foldl_add_int f l (a + f p)]
    ring

/-- C4: the overall month total is the sum of per-point totals over exactly
the activity-derived point set: the distinct nonempty point codes with at
least one visit row in the month or at least one adjustment row of the month
key (no other signal — in particular a point with only a coffee/rate setting
contributes nothing). -/
theorem C4_overall_total_activity (db : DB) (mid : Nat) (y m : Nat)
    (hv : ∀ v ∈ db.visits, v.point_code ≠ "")
    (ha : ∀ a ∈ db.adjustments, a.point_code ≠ "") :
    compute_overall_total db mid y m =
      ((get_points_for_month db mid y m).map
        (fun p => (compute_point_total db mid p y m).total)).sum
    ∧ (get_points_for_month db mid y m).Nodup
    ∧ (∀ p : String, p ∈ get_points_for_month db mid y m ↔
        ((∃ v ∈ db.visits, v.merchant_id = mid ∧ v.visit_date.y = y ∧
            v.visit_date.m = m ∧ v.point_code = p) ∨
          (∃ a ∈ db.adjustments, a.merchant_id = mid ∧ a.month_y = y ∧
            a.month_m = m ∧ a.point_code = p))) := by
  refine ⟨?_, ?_, ?_⟩
  · unfold compute_overall_total
    rw [foldl_add_int]
    simp
  · exact List.Nodup.filter _ (List.nodup_dedup _)
  · intro p
    simp only [get_points_for_month, List.mem_filter, List.mem_dedup,
      List.mem_append, List.mem_map, decide_eq_true_eq]
    constructor
    · rintro ⟨⟨v, ⟨hvmem, hprop⟩, rfl⟩ | ⟨a, ⟨hamem, hprop⟩, rfl⟩, _⟩
      · exact Or.inl ⟨v, hvmem, hprop.1, hprop.2.1, hprop.2.2, rfl⟩
      · exact Or.inr ⟨a, hamem, hprop.1, hprop.2.1, hprop.2.2, rfl⟩
    · rintro (⟨v, hvmem, h1, h2, h3, hp⟩ | ⟨a, hamem, h1, h2, h3, hp⟩)
      · exact ⟨Or.inl ⟨v, ⟨hvmem, h1, h2, h3⟩, hp⟩, hp ▸ hv v hvmem⟩
      · exact ⟨Or.inr ⟨a, ⟨hamem, h1, h2, h3⟩, hp⟩, hp ▸ ha a hamem⟩

/-- C4 witness: on a concrete ledger with visits at one point, the overall
total is the per-point sum over the activity-derived set. -/
theorem C4_overall_total_activity_witness :
    compute_overall_total exampleDB2 1 2026 10 =
      ((get_points_for_month exampleDB2 1 2026 10).map
        (fun p => (compute_point_total exampleDB2 1 p 2026 10).total)).sum :=
  (C4_overall_total_activity exampleDB2 1 2026 10 (by decide) (by decide)).1

/-! ## Frame lemmas for the auditor call -/

lemma maybe_notify_visits (db : DB) (mid : Nat) (y m now : Nat)
    (act : String) :
    (maybe_notify_post_submit_change db mid y m now act).1.visits =
      db.visits := by
  cases hs : get_submission_status db mid y m <;>
    simp [maybe_notify_post_submit_change, hs, touch_updated_after_submit]

lemma maybe_notify_merchants (db : DB) (mid : Nat) (y m now : Nat)
    (act : String) :
    (maybe_notify_post_submit_change db mid y m now act).1.merchants =
      db.merchants := by
  cases hs : get_submission_status db mid y m <;>
    simp [maybe_notify_post_submit_change, hs, touch_updated_after_submit]

lemma maybe_notify_adjustments (db : DB) (mid : Nat) (y m now : Nat)
    (act : String) :
    (maybe_notify_post_submit_change db mid y m now act).1.adjustments =
      db.adjustments := by
  cases hs : get_submission_status db mid y m <;>
    simp [maybe_notify_post_submit_change, hs, touch_updated_after_submit]

lemma add_or_remove_visit_submissions (db : DB) (mid : Nat) (p : String)
    (y m day : Nat) (slot : Slot) :
    (add_or_remove_visit db mid p y m day slot).1.submissions =
      db.submissions := by
  by_cases hv : (⟨mid, p, ⟨y, m, day⟩, slot⟩ : Visit) ∈ db.visits
  · rw [add_or_remove_visit_mem hv]
  · rw [add_or_remove_visit_not_mem hv]

lemma add_or_remove_visit_adjustments (db : DB) (mid : Nat) (p : String)
    (y m day : Nat) (slot : Slot) :
    (add_or_remove_visit db mid p y m day slot).1.adjustments =
      db.adjustments := by
  by_cases hv : (⟨mid, p, ⟨y, m, day⟩, slot⟩ : Visit) ∈ db.visits
  · rw [add_or_remove_visit_mem hv]
  · rw [add_or_remove_visit_not_mem hv]

/-- The toggle does not change which (merchant, month) submissions exist. -/
lemma toggle_inner_status (db : DB) (mid : Nat) (p : String) (y m day : Nat)
    (slot : Slot) :
    get_submission_status (add_or_remove_visit db mid p y m day slot).1
      mid y m = get_submission_status db mid y m := by
  show (add_or_remove_visit db mid p y m day slot).1.submissions.find? _ =
    db.submissions.find? _
  rw [add_or_remove_visit_submissions]

/-! ## C7: which mutating operations call the auditor -/

/-- A ledger with a submitted month and one confirmed reimbursement whose
receipt is still missing. -/
def auditDB : DB :=
  { merchants := [⟨1, "A A", none⟩]
    supplies := []
    visits := []
    adjustments := [⟨1, 1, "p1", 2026, 10, 350, "taxi", AdjKind.REIMB, none, none⟩]
    submissions := [⟨1, 2026, 10, 5, none⟩]
    point_rates := [] }

/-- C7 counterexample: attaching a receipt is a mutation of the adjustment
ledger performed while a Submission row exists, yet it emits no audit
notification and leaves `updated_after_submit_at` untouched (null) — the
receipt handler never calls the submission-audit touch, contradicting the
claim that every mutating operation does. -/
theorem C7_attach_receipt_no_touch_cex :
    get_submission_status auditDB 1 2026 10 ≠ none
    ∧ (attach_receipt auditDB 1 "f1" 7).1.adjustments ≠ auditDB.adjustments
    ∧ (attach_receipt auditDB 1 "f1" 7).2 = []
    ∧ (attach_receipt auditDB 1 "f1" 7).1.submissions = auditDB.submissions
    ∧ ∀ s ∈ (attach_receipt auditDB 1 "f1" 7).1.submissions,
        s.updated_after_submit_at = none := by
  refine ⟨by decide, by decide, rfl, rfl, by decide⟩

/-- C7 (amended): the slot toggle and the adjustment insertion (`addNote` /
`addReimbursement`, both committed by the same handler) call the
submission-audit touch after committing — whenever a Submission row exists
they stamp `updated_after_submit_at` and emit exactly one audit
notification — while `attachReceipt` and the reimbursement-draft
cancellation commit their changes without calling the touch: they emit no
audit notification and leave the submissions table unchanged. -/
theorem C7_mutations_and_touch (db : DB) (mid : Nat) (p : String)
    (y m day : Nat) (slot : Slot) (now : Nat) (amount : Int) (memo : String)
    (kind : AdjKind) (rid : Nat) (fid : String) :
    ((get_submission_status db mid y m ≠ none ∧
        (toggle_slot db mid p y m day slot now).err = none) →
      (toggle_slot db mid p y m day slot now).audit.length = 1
      ∧ ∀ s ∈ (toggle_slot db mid p y m day slot now).db.submissions,
          s.merchant_id = mid → s.month_y = y → s.month_m = m →
            s.updated_after_submit_at = some now)
    ∧ (get_submission_status db mid y m ≠ none →
        (add_adjustment db mid p y m amount memo kind now).2.2.length = 1
        ∧ ∀ s ∈ (add_adjustment db mid p y m amount memo kind
              now).1.submissions,
            s.merchant_id = mid → s.month_y = y → s.month_m = m →
              s.updated_after_submit_at = some now)
    ∧ (attach_receipt db rid fid now).2 = []
    ∧ (attach_receipt db rid fid now).1.submissions = db.submissions
    ∧ (cancel_reimb_draft db rid).2 = []
    ∧ (cancel_reimb_draft db rid).1.submissions = db.submissions := by
  refine ⟨?_, ?_, rfl, rfl, rfl, rfl⟩
  · rintro ⟨hne, herr⟩
    by_cases hcond : slot = Slot.FULL_INVENT ∧
        ¬(weekday_of y m day = 4 ∨ weekday_of y m day = 5)
    · rw [toggle_slot, if_pos hcond] at herr
      exact absurd herr (by simp)
    · have hpres1 : get_submission_status
          (add_or_remove_visit db mid p y m day slot).1 mid y m ≠ none := by
        rw [toggle_inner_status]
        exact hne
      cases hs1 : get_submission_status
          (add_or_remove_visit db mid p y m day slot).1 mid y m with
      | none => exact absurd hs1 hpres1
      | some srow =>
        rw [toggle_slot, if_neg hcond]
        simp only [maybe_notify_post_submit_change, hs1]
        refine ⟨rfl, ?_⟩
        exact touch_key_rows _ mid y m now
  · intro hne
    have hpres1 : get_submission_status
        { db with adjustments := db.adjustments ++
            [⟨next_adj_id db, mid, p, y, m, amount, memo, kind, none, none⟩] }
        mid y m ≠ none := hne
    cases hs1 : get_submission_status
        { db with adjustments := db.adjustments ++
            [⟨next_adj_id db, mid, p, y, m, amount, memo, kind, none, none⟩] }
        mid y m with
    | none => exact absurd hs1 hpres1
    | some srow =>
      unfold add_adjustment
      simp only [maybe_notify_post_submit_change, hs1]
      refine ⟨rfl, ?_⟩
      exact touch_key_rows _ mid y m now

/-! ## C8: receipt reference semantics -/

/-- A ledger whose single reimbursement already carries a receipt. -/
def receiptDB : DB :=
  { merchants := []
    supplies := []
    visits := []
    adjustments := [⟨1, 1, "p1", 2026, 10, 350, "taxi", AdjKind.REIMB,
      some "a", some 3⟩]
    submissions := []
    point_rates := [] }

/-- C8 counterexample: the receipt UPDATE has no null-guard, so a second
`attachReceipt` on the same id overwrites the already-non-null
`receipt_file_id` from `some "a"` to `some "b"` — the field is not
immutable once set, contradicting the claim. -/
theorem C8_receipt_overwrite_cex :
    receiptDB.adjustments.map (·.receipt_file_id) = [some "a"]
    ∧ (attach_receipt receiptDB 1 "b" 9).1.adjustments.map
        (·.receipt_file_id) = [some "b"] := by
  refine ⟨rfl, rfl⟩

/-- C8 (amended): `attachReceipt` sets the receipt reference of the REIMB
row with the given id each time it is called — overwriting any previous
value rather than being rejected — and leaves every other row unchanged; no
other operation changes an existing receipt reference: draft cancellation
deletes only rows whose receipt is null (rows with a receipt survive
unchanged), the adjustment insertion only appends a fresh row, and the slot
toggle and submit do not touch the adjustment table at all. -/
theorem C8_receipt_set_semantics (db : DB) (rid : Nat) (fid : String)
    (now : Nat) (mid : Nat) (p : String) (y m day : Nat) (slot : Slot)
    (amount : Int) (memo : String) (kind : AdjKind) (t : Nat) :
    (∀ a ∈ db.adjustments, ¬(a.id = rid ∧ a.kind = AdjKind.REIMB) →
      a ∈ (attach_receipt db rid fid now).1.adjustments)
    ∧ (∀ a ∈ db.adjustments, a.id = rid → a.kind = AdjKind.REIMB →
        ({ a with
            receipt_file_id := some fid
            receipt_uploaded_at := some now } : Adjustment) ∈
          (attach_receipt db rid fid now).1.adjustments)
    ∧ (∀ a ∈ db.adjustments, a.receipt_file_id ≠ none →
        a ∈ (cancel_reimb_draft db rid).1.adjustments)
    ∧ (add_adjustment db mid p y m amount memo kind t).1.adjustments =
        db.adjustments ++
          [⟨next_adj_id db, mid, p, y, m, amount, memo, kind, none, none⟩]
    ∧ (toggle_slot db mid p y m day slot t).db.adjustments = db.adjustments
    ∧ (mark_submitted db mid y m t).1.adjustments = db.adjustments := by
  refine ⟨?_, ?_, ?_, ?_, ?_, ?_⟩
  · intro a ha hk
    have : (if a.id = rid ∧ a.kind = AdjKind.REIMB then
        ({ a with
          receipt_file_id := some fid
          receipt_uploaded_at := some now } : Adjustment) else a) = a :=
      if_neg hk
    exact this ▸ List.mem_map_of_mem _ ha
  · intro a ha h1 h2
    have : (if a.id = rid ∧ a.kind = AdjKind.REIMB then
        ({ a with
          receipt_file_id := some fid
          receipt_uploaded_at := some now } : Adjustment) else a) =
        { a with
          receipt_file_id := some fid
          receipt_uploaded_at := some now } :=
      if_pos ⟨h1, h2⟩
    exact this ▸ List.mem_map_of_mem _ ha
  · intro a ha hr
    refine List.mem_filter.mpr ⟨ha, ?_⟩
    simp only [decide_eq_true_eq]
    rintro ⟨-, -, hnull⟩
    exact hr hnull
  · unfold add_adjustment
    rw [maybe_notify_adjustments]
  · by_cases hcond : slot = Slot.FULL_INVENT ∧
        ¬(weekday_of y m day = 4 ∨ weekday_of y m day = 5)
    · rw [toggle_slot, if_pos hcond]
    · rw [toggle_slot, if_neg hcond]
      show (maybe_notify_post_submit_change _ mid y m t _).1.adjustments =
        db.adjustments
      rw [maybe_notify_adjustments, add_or_remove_visit_adjustments]
  · unfold mark_submitted
    by_cases hany : db.submissions.any (fun s => decide (s.merchant_id = mid ∧
        s.month_y = y ∧ s.month_m = m)) = true
    · rw [if_pos hany]
    · rw [if_neg hany]

/-! ## Collision-detector helpers -/

/-- Membership in `find_collisions`: exactly the merchants other than the
acting one that have a visit of any slot kind at the same point and date
(and a `merchants` row, which the SQL join requires; a foreign key makes
that row exist for every visit). -/
lemma find_collisions_mem_iff (db : DB) (p : String) (y m day : Nat)
    (mid mid2 : Nat) :
    (∃ f, (mid2, f) ∈ find_collisions db p y m day mid) ↔
      (mid2 ≠ mid ∧
        (∃ s : Slot, (⟨mid2, p, ⟨y, m, day⟩, s⟩ : Visit) ∈ db.visits) ∧
        ∃ mr ∈ db.merchants, mr.id = mid2) := by
  constructor
  · rintro ⟨f, hf⟩
    simp only [find_collisions, List.mem_dedup, List.mem_filterMap] at hf
    obtain ⟨v, hvf, hg⟩ := hf
    obtain ⟨hvmem, hpred⟩ := List.mem_filter.mp hvf
    simp only [decide_eq_true_eq] at hpred
    obtain ⟨hpoint, hdate, hnemid⟩ := hpred
    obtain ⟨mr, hfind, hpair⟩ := Option.map_eq_some'.mp hg
    have hmrmem : mr ∈ db.merchants := List.mem_of_find?_eq_some hfind
    have hmrid : mr.id = v.merchant_id := by
      have := List.find?_some hfind
      exact of_decide_eq_true this
    have hvid : v.merchant_id = mid2 := congrArg Prod.fst hpair
    obtain ⟨vm, vp, vd, vs⟩ := v
    simp only at hvid hpoint hdate hnemid hmrid
    subst hvid hpoint hdate
    exact ⟨hnemid, ⟨vs, hvmem⟩, mr, hmrmem, hmrid⟩
  · rintro ⟨hne, ⟨s, hsmem⟩, mr, hmr, hmrid⟩
    have hfindsome : (db.merchants.find?
        (fun mr2 => decide (mr2.id = mid2))).isSome := by
      refine List.find?_isSome.mpr ⟨mr, hmr, ?_⟩
      simp [hmrid]
    obtain ⟨mr2, hmr2⟩ := Option.isSome_iff_exists.mp hfindsome
    refine ⟨mr2.fio, ?_⟩
    simp only [find_collisions, List.mem_dedup, List.mem_filterMap]
    refine ⟨⟨mid2, p, ⟨y, m, day⟩, s⟩, ?_, ?_⟩
    · refine List.mem_filter.mpr ⟨hsmem, ?_⟩
      simp [hne]
    · show ((db.merchants.find? (fun mr3 => decide (mr3.id = mid2))).map
        (fun mr3 => (mid2, mr3.fio))) = some (mid2, mr2.fio)
      rw [hmr2]
      rfl

/-- A removal never runs the collision check: the collision list is empty
whenever the toggle was not an addition. -/
lemma toggle_not_added_collisions (db : DB) (mid : Nat) (p : String)
    (y m day : Nat) (slot : Slot) (now : Nat)
    (hadd : (toggle_slot db mid p y m day slot now).wasAdded = false) :
    (toggle_slot db mid p y m day slot now).collisions = [] := by
  by_cases hcond : slot = Slot.FULL_INVENT ∧
      ¬(weekday_of y m day = 4 ∨ weekday_of y m day = 5)
  · rw [toggle_slot, if_pos hcond]
  · rw [toggle_slot, if_neg hcond] at hadd ⊢
    have hadd2 : (add_or_remove_visit db mid p y m day slot).2.2 = false :=
      hadd
    show (if (add_or_remove_visit db mid p y m day slot).2.2 = true then
        find_collisions _ p y m day mid else []) = []
    rw [hadd2]
    simp

/-- On an addition the collision list is exactly `find_collisions` evaluated
on the post-toggle ledger. -/
lemma toggle_added_collisions (db : DB) (mid : Nat) (p : String)
    (y m day : Nat) (slot : Slot) (now : Nat)
    (herr : (toggle_slot db mid p y m day slot now).err = none)
    (hadd : (toggle_slot db mid p y m day slot now).wasAdded = true) :
    (toggle_slot db mid p y m day slot now).collisions =
      find_collisions (toggle_slot db mid p y m day slot now).db
        p y m day mid := by
  by_cases hcond : slot = Slot.FULL_INVENT ∧
      ¬(weekday_of y m day = 4 ∨ weekday_of y m day = 5)
  · rw [toggle_slot, if_pos hcond] at herr
    exact absurd herr (by simp)
  · rw [toggle_slot, if_neg hcond] at hadd ⊢
    have hadd2 : (add_or_remove_visit db mid p y m day slot).2.2 = true :=
      hadd
    show (if (add_or_remove_visit db mid p y m day slot).2.2 = true then
        find_collisions _ p y m day mid else []) =
      find_collisions _ p y m day mid
    rw [hadd2]
    simp

/-- A legal toggle's resulting visit table is exactly the toggled one (the
auditor call does not change visits). -/
lemma toggle_db_visits (db : DB) (mid : Nat) (p : String) (y m day : Nat)
    (slot : Slot) (now : Nat)
    (herr : (toggle_slot db mid p y m day slot now).err = none) :
    (toggle_slot db mid p y m day slot now).db.visits =
      (add_or_remove_visit db mid p y m day slot).1.visits := by
  by_cases hcond : slot = Slot.FULL_INVENT ∧
      ¬(weekday_of y m day = 4 ∨ weekday_of y m day = 5)
  · rw [toggle_slot, if_pos hcond] at herr
    exact absurd herr (by simp)
  · rw [toggle_slot, if_neg hcond]
    show (maybe_notify_post_submit_change _ mid y m now _).1.visits = _
    rw [maybe_notify_visits]

lemma add_or_remove_visit_merchants (db : DB) (mid : Nat) (p : String)
    (y m day : Nat) (slot : Slot) :
    (add_or_remove_visit db mid p y m day slot).1.merchants =
      db.merchants := by
  by_cases hv : (⟨mid, p, ⟨y, m, day⟩, slot⟩ : Visit) ∈ db.visits
  · rw [add_or_remove_visit_mem hv]
  · rw [add_or_remove_visit_not_mem hv]

/-- A toggle never changes the merchants table. -/
lemma toggle_db_merchants (db : DB) (mid : Nat) (p : String) (y m day : Nat)
    (slot : Slot) (now : Nat) :
    (toggle_slot db mid p y m day slot now).db.merchants = db.merchants := by
  by_cases hcond : slot = Slot.FULL_INVENT ∧
      ¬(weekday_of y m day = 4 ∨ weekday_of y m day = 5)
  · rw [toggle_slot, if_pos hcond]
  · rw [toggle_slot, if_neg hcond]
    show (maybe_notify_post_submit_change _ mid y m now _).1.merchants = _
    rw [maybe_notify_merchants, add_or_remove_visit_merchants]

/-- A legal toggle reports an addition exactly when the row was absent. -/
lemma toggle_wasAdded_iff (db : DB) (mid : Nat) (p : String) (y m day : Nat)
    (slot : Slot) (now : Nat)
    (herr : (toggle_slot db mid p y m day slot now).err = none) :
    ((toggle_slot db mid p y m day slot now).wasAdded = true ↔
      (⟨mid, p, ⟨y, m, day⟩, slot⟩ : Visit) ∉ db.visits) := by
  by_cases hcond : slot = Slot.FULL_INVENT ∧
      ¬(weekday_of y m day = 4 ∨ weekday_of y m day = 5)
  · rw [toggle_slot, if_pos hcond] at herr
    exact absurd herr (by simp)
  · rw [toggle_slot, if_neg hcond]
    show (add_or_remove_visit db mid p y m day slot).2.2 = true ↔ _
    by_cases hv : (⟨mid, p, ⟨y, m, day⟩, slot⟩ : Visit) ∈ db.visits
    · rw [add_or_remove_visit_mem hv]
      simp [hv]
    · rw [add_or_remove_visit_not_mem hv]
      simp [hv]

/-- Two merchants, no visits yet: the concrete double-booking scenario. -/
def collDB : DB :=
  { merchants := [⟨1, "A A", none⟩, ⟨2, "B B", none⟩]
    supplies := []
    visits := []
    adjustments := []
    submissions := []
    point_rates := [] }

/-- C9: the collision check runs exactly on additions — a non-addition
yields an empty collision list, an addition yields `find_collisions` on the
post-toggle ledger, whose members are precisely the other merchants with a
visit of any slot kind at the same point and date; in the two-merchant
scenario, A adding then B adding makes B's collision list name A, while A
removing first leaves B's addition collision-free; concretely, on `collDB`
the second toggle reports `[(1, "A A")]`. -/
theorem C9_collision_on_addition (db : DB) (p : String) (y m day : Nat)
    (mid mid2 : Nat) (now now2 : Nat) (slot slotA slotB : Slot) :
    (∀ mid3 : Nat, (∃ f, (mid3, f) ∈ find_collisions db p y m day mid) ↔
        (mid3 ≠ mid ∧
          (∃ s : Slot, (⟨mid3, p, ⟨y, m, day⟩, s⟩ : Visit) ∈ db.visits) ∧
          ∃ mr ∈ db.merchants, mr.id = mid3))
    ∧ ((toggle_slot db mid p y m day slot now).wasAdded = false →
        (toggle_slot db mid p y m day slot now).collisions = [])
    ∧ ((toggle_slot db mid p y m day slot now).err = none →
        (toggle_slot db mid p y m day slot now).wasAdded = true →
        (toggle_slot db mid p y m day slot now).collisions =
          find_collisions (toggle_slot db mid p y m day slot now).db
            p y m day mid)
    ∧ (mid ≠ mid2 →
        (∃ mr ∈ db.merchants, mr.id = mid) →
        (⟨mid, p, ⟨y, m, day⟩, slotA⟩ : Visit) ∉ db.visits →
        (⟨mid2, p, ⟨y, m, day⟩, slotB⟩ : Visit) ∉ db.visits →
        (toggle_slot db mid p y m day slotA now).err = none →
        (toggle_slot (toggle_slot db mid p y m day slotA now).db
            mid2 p y m day slotB now2).err = none →
        ∃ f, (mid, f) ∈ (toggle_slot (toggle_slot db mid p y m day slotA
            now).db mid2 p y m day slotB now2).collisions)
    ∧ (db.visits.Nodup →
        mid2 ≠ mid →
        (∀ v ∈ db.visits, v.point_code = p → v.visit_date = ⟨y, m, day⟩ →
          v = ⟨mid, p, ⟨y, m, day⟩, slotA⟩) →
        (⟨mid, p, ⟨y, m, day⟩, slotA⟩ : Visit) ∈ db.visits →
        (toggle_slot db mid p y m day slotA now).err = none →
        (toggle_slot (toggle_slot db mid p y m day slotA now).db
            mid2 p y m day slotB now2).err = none →
        (toggle_slot (toggle_slot db mid p y m day slotA now).db
            mid2 p y m day slotB now2).collisions = [])
    ∧ (toggle_slot (toggle_slot collDB 1 "p1" 2026 10 6 Slot.DAY 0).db
        2 "p1" 2026 10 6 Slot.DAY 0).collisions = [(1, "A A")] := by
  refine ⟨fun mid3 => find_collisions_mem_iff db p y m day mid mid3,
    toggle_not_added_collisions db mid p y m day slot now,
    toggle_added_collisions db mid p y m day slot now, ?_, ?_, by decide⟩
  · intro hAB hmr hA hB herrA herrB
    have hv1 : (toggle_slot db mid p y m day slotA now).db.visits =
        (⟨mid, p, ⟨y, m, day⟩, slotA⟩ : Visit) :: db.visits := by
      rw [toggle_db_visits db mid p y m day slotA now herrA,
        add_or_remove_visit_not_mem hA]
    have hm1 : (toggle_slot db mid p y m day slotA now).db.merchants =
        db.merchants := toggle_db_merchants db mid p y m day slotA now
    have hvBne : (⟨mid2, p, ⟨y, m, day⟩, slotB⟩ : Visit) ≠
        ⟨mid, p, ⟨y, m, day⟩, slotA⟩ := by
      intro hcontra
      exact hAB (congrArg Visit.merchant_id hcontra).symm
    have hB1 : (⟨mid2, p, ⟨y, m, day⟩, slotB⟩ : Visit) ∉
        (toggle_slot db mid p y m day slotA now).db.visits := by
      rw [hv1]
      intro hmem
      rcases List.mem_cons.mp hmem with h | h
      · exact hvBne h
      · exact hB h
    have haddB : (toggle_slot (toggle_slot db mid p y m day slotA now).db
        mid2 p y m day slotB now2).wasAdded = true :=
      (toggle_wasAdded_iff _ mid2 p y m day slotB now2 herrB).mpr hB1
    rw [toggle_added_collisions _ mid2 p y m day slotB now2 herrB haddB]
    apply (find_collisions_mem_iff _ p y m day mid2 mid).mpr
    refine ⟨hAB, ⟨slotA, ?_⟩, ?_⟩
    · have hv2 : (toggle_slot (toggle_slot db mid p y m day slotA now).db
          mid2 p y m day slotB now2).db.visits =
          (⟨mid2, p, ⟨y, m, day⟩, slotB⟩ : Visit) ::
            (toggle_slot db mid p y m day slotA now).db.visits := by
        rw [toggle_db_visits _ mid2 p y m day slotB now2 herrB,
          add_or_remove_visit_not_mem hB1]
      rw [hv2, hv1]
      exact List.mem_cons_of_mem _ (List.mem_cons_self _ _)
    · rw [toggle_db_merchants _ mid2 p y m day slotB now2, hm1]
      exact hmr
  · intro hnd hBA honly hA herrA herrB
    have hv1 : (toggle_slot db mid p y m day slotA now).db.visits =
        db.visits.erase ⟨mid, p, ⟨y, m, day⟩, slotA⟩ := by
      rw [toggle_db_visits db mid p y m day slotA now herrA,
        add_or_remove_visit_mem hA]
    have hBnotin : (⟨mid2, p, ⟨y, m, day⟩, slotB⟩ : Visit) ∉
        (toggle_slot db mid p y m day slotA now).db.visits := by
      rw [hv1]
      intro hmem
      have hmem2 : (⟨mid2, p, ⟨y, m, day⟩, slotB⟩ : Visit) ∈ db.visits :=
        List.mem_of_mem_erase hmem
      exact hBA (congrArg Visit.merchant_id (honly _ hmem2 rfl rfl))
    have haddB : (toggle_slot (toggle_slot db mid p y m day slotA now).db
        mid2 p y m day slotB now2).wasAdded = true :=
      (toggle_wasAdded_iff _ mid2 p y m day slotB now2 herrB).mpr hBnotin
    rw [toggle_added_collisions _ mid2 p y m day slotB now2 herrB haddB]
    have hv2 : (toggle_slot (toggle_slot db mid p y m day slotA now).db
        mid2 p y m day slotB now2).db.visits =
        (⟨mid2, p, ⟨y, m, day⟩, slotB⟩ : Visit) ::
          db.visits.erase ⟨mid, p, ⟨y, m, day⟩, slotA⟩ := by
      rw [toggle_db_visits _ mid2 p y m day slotB now2 herrB,
        add_or_remove_visit_not_mem hBnotin, hv1]
    rw [List.eq_nil_iff_forall_not_mem]
    rintro ⟨x1, x2⟩ hx
    have hex : ∃ f, (x1, f) ∈ find_collisions
        (toggle_slot (toggle_slot db mid p y m day slotA now).db
          mid2 p y m day slotB now2).db p y m day mid2 := ⟨x2, hx⟩
    obtain ⟨hxne, ⟨s, hsmem⟩, -⟩ :=
      (find_collisions_mem_iff _ p y m day mid2 x1).mp hex
    rw [hv2] at hsmem
    rcases List.mem_cons.mp hsmem with h | h
    · exact hxne (congrArg Visit.merchant_id h)
    · obtain ⟨hne2, hmem2⟩ := (List.Nodup.mem_erase_iff hnd).mp h
      exact hne2 (honly _ hmem2 rfl rfl)

end SalaryBot
